import Mathlib

/-!
Verification of the llama.ttf shaping extension (crates `llamattf` and
`t5-quantized`) against its natural-language specification.

Text is modelled as `List Nat` of Unicode scalar values (Rust `char` is a
Unicode scalar value; `as u32` is `Char.toNat`).  Machine integers
(`u32`, `usize` on the wasm32 target) are modelled as `Nat`, with `% 2^w`
written explicitly at the one place the source truncates (`codepoint as u8`
is `% 256`).  External collaborators (the candle model, the tokenizer, the
harfbuzz font) are parameters of the embedding, exactly as the spec
declares them out of scope.
-/

set_option autoImplicit false

namespace LlamaTtf

/-- Codepoints of a string literal, used to write concrete texts. -/
def strCps (s : String) : List Nat := s.data.map Char.toNat

/-! ## Lossy UTF-8 decoding (Rust `String::from_utf8_lossy`, line 60)

Modelled from the documented behaviour of the Rust standard library
(not repository code): each maximal subpart of an ill-formed subsequence
is replaced by one U+FFFD replacement character, per the WHATWG / Unicode
"substitution of maximal subparts" policy. -/

/-- Classification of a non-ASCII leading byte: the admissible range of
the second byte and the announced total sequence length (a third
component of 0 marks an invalid leading byte: 0x80-0xC1, 0xF5-0xFF). -/
def leadSpec (b : Nat) : Nat × Nat × Nat :=
  if 194 ≤ b ∧ b ≤ 223 then (128, 191, 2)
  else if b = 224 then (160, 191, 3)
  else if 225 ≤ b ∧ b ≤ 236 then (128, 191, 3)
  else if b = 237 then (128, 159, 3)
  else if 238 ≤ b ∧ b ≤ 239 then (128, 191, 3)
  else if b = 240 then (144, 191, 4)
  else if 241 ≤ b ∧ b ≤ 243 then (128, 191, 4)
  else if b = 244 then (128, 143, 4)
  else (0, 0, 0)

/-- Decode one scalar value from byte `b` followed by `rest`.
Returns the scalar and the total number of bytes consumed (at least 1);
an ill-formed maximal subpart yields the replacement character U+FFFD
and consumes exactly its own bytes. -/
def utf8Step (b : Nat) (rest : List Nat) : Nat × Nat :=
  if b < 128 then (b, 1)
  else if (leadSpec b).2.2 = 0 then (65533, 1)
  else
    match rest with
    | [] => (65533, 1)
    | b2 :: rest2 =>
      if ¬((leadSpec b).1 ≤ b2 ∧ b2 ≤ (leadSpec b).2.1) then (65533, 1)
      else if (leadSpec b).2.2 = 2 then ((b - 192) * 64 + (b2 - 128), 2)
      else
        match rest2 with
        | [] => (65533, 2)
        | b3 :: rest3 =>
          if ¬(128 ≤ b3 ∧ b3 ≤ 191) then (65533, 2)
          else if (leadSpec b).2.2 = 3 then
            ((b - 224) * 4096 + (b2 - 128) * 64 + (b3 - 128), 3)
          else
            match rest3 with
            | [] => (65533, 3)
            | b4 :: _ =>
              if ¬(128 ≤ b4 ∧ b4 ≤ 191) then (65533, 3)
              else ((b - 240) * 262144 + (b2 - 128) * 4096 + (b3 - 128) * 64 + (b4 - 128), 4)

/-- Fuelled decoding loop; the fuel is only a structural-recursion device,
`decodeUtf8Lossy` always supplies enough of it. -/
def decodeLossyGo : Nat → List Nat → List Nat
  | _, [] => []
  | 0, _ :: _ => []
  | fuel + 1, b :: rest =>
    (utf8Step b rest).1 ::
      decodeLossyGo fuel (rest.drop ((utf8Step b rest).2 - 1))

/-- Lossy UTF-8 decoding of a byte sequence into scalar values. -/
def decodeUtf8Lossy (l : List Nat) : List Nat := decodeLossyGo l.length l

/-! ## Numeric fast-path detector (`is_number`, lib.rs lines 37-45)

The two parse attempts are Rust standard-library calls; they are modelled
from the documented grammars of `str::parse::<isize>` (wasm32 target, so
`isize` is 32-bit) and `str::parse::<f64>`. -/

def isDigitCp (c : Nat) : Bool := 48 ≤ c && c ≤ 57

/-- Strip one optional leading sign; the flag is true for a minus sign. -/
def splitSign : List Nat → Bool × List Nat
  | 43 :: rest => (false, rest)   -- '+'
  | 45 :: rest => (true, rest)    -- '-'
  | s => (false, s)

def digitsToNat (ds : List Nat) : Nat :=
  ds.foldl (fun a c => a * 10 + (c - 48)) 0

/-- Rust `s.parse::<isize>()` succeeds (wasm32: 32-bit signed range). -/
def parsesAsIsize (s : List Nat) : Bool :=
  let p := splitSign s
  !p.2.isEmpty && p.2.all isDigitCp &&
    (if p.1 then digitsToNat p.2 ≤ 2 ^ 31 else digitsToNat p.2 < 2 ^ 31)

def toLowerCp (c : Nat) : Nat := if 65 ≤ c ∧ c ≤ 90 then c + 32 else c

/-- Mantissa of the f64 grammar: digits with at most one dot and at least
one digit (equivalently Digit+ | Digit+ '.' Digit* | Digit* '.' Digit+). -/
def mantissaOk (m : List Nat) : Bool :=
  m.all (fun c => isDigitCp c || c = 46) && m.count 46 ≤ 1 && m.any isDigitCp

/-- Split at the first exponent marker 'e' or 'E', if any. -/
def splitAtExpMark : List Nat → List Nat × Option (List Nat)
  | [] => ([], none)
  | c :: rest =>
    if c = 101 ∨ c = 69 then ([], some rest)
    else
      let p := splitAtExpMark rest
      (c :: p.1, p.2)

def expPartOk (e : List Nat) : Bool :=
  let p := splitSign e
  !p.2.isEmpty && p.2.all isDigitCp

/-- Rust `s.parse::<f64>()` succeeds: optional sign, then a
case-insensitive infinity/NaN keyword or a decimal number with optional
exponent.  Only success matters to the source, never the value. -/
def parsesAsF64 (s : List Nat) : Bool :=
  let body := (splitSign s).2
  let low := body.map toLowerCp
  low = strCps "inf" || low = strCps "infinity" || low = strCps "nan" ||
    (let p := splitAtExpMark body
     mantissaOk p.1 && (match p.2 with | none => true | some ex => expPartOk ex))

/-- lib.rs lines 37-45: try the integer parse, then the float parse.
The discarded `Value` enum of the source has no observable effect. -/
def is_number (s : List Nat) : Bool :=
  if parsesAsIsize s then true
  else if parsesAsF64 s then true
  else false

/-! ## Glyphs and the sentence orchestrator (`shape`, lib.rs lines 47-177) -/

structure Glyph where
  codepoint : Nat
  flags : Nat
  xAdvance : Int
  yAdvance : Int
  cluster : Nat
  xOffset : Int
  yOffset : Int
  deriving DecidableEq, Repr

/-- A glyph as the source constructs them: everything but codepoint and
cluster is zero. -/
def mkGlyph (cp cluster : Nat) : Glyph :=
  { codepoint := cp, flags := 0, xAdvance := 0, yAdvance := 0,
    cluster := cluster, xOffset := 0, yOffset := 0 }

/-- lib.rs line 105: `vec!['.', '!', '?']`. -/
def isPunctCp (c : Nat) : Bool := c = 46 || c = 33 || c = 63

/-- Rust `str::split_inclusive`: split after each matching character,
keeping it; a trailing fragment without a match is kept; no empty pieces
are produced. -/
def splitInclusiveGo (acc : List Nat) : List Nat → List (List Nat)
  | [] => if acc.isEmpty then [] else [acc.reverse]
  | c :: rest =>
    if isPunctCp c then (acc.reverse ++ [c]) :: splitInclusiveGo [] rest
    else splitInclusiveGo (c :: acc) rest

def splitSentences (l : List Nat) : List (List Nat) := splitInclusiveGo [] l

/-- lib.rs line 133: the prompt handed to the model for a sentence. -/
def genPrompt (sentence : List Nat) : List Nat :=
  strCps "translate English to German:" ++ sentence

/-- First value stored under a key, mirroring `HashMap::get`. -/
def cacheFind : List (List Nat × List Nat) → List Nat → Option (List Nat)
  | [], _ => none
  | e :: rest, key => if e.1 = key then some e.2 else cacheFind rest key

/-- `HashMap::insert`; prepending shadows any earlier binding, which is
observationally the map update (lookups see the newest binding). -/
def cacheInsert (cache : List (List Nat × List Nat)) (k v : List Nat) :
    List (List Nat × List Nat) :=
  (k, v) :: cache

structure CacheStep where
  output : List Nat
  cache : List (List Nat × List Nat)
  invoked : Bool
  deriving DecidableEq

/-- lib.rs lines 129-147: consult the translation cache, otherwise invoke
the generation engine; a generation failure falls back to the sentence
itself and stores nothing.  `invoked` records whether the engine ran. -/
def cacheLookupOrGen (cache : List (List Nat × List Nat)) (sentence : List Nat)
    (gen : List Nat → Except String (List Nat)) : CacheStep :=
  match cacheFind cache sentence with
  | some v => { output := v, cache := cache, invoked := false }
  | none =>
    match gen (genPrompt sentence) with
    | .ok out => { output := out, cache := cacheInsert cache sentence out, invoked := true }
    | .error _ => { output := sentence, cache := cache, invoked := true }

/-- lib.rs lines 151-164: append one glyph per output character; clusters
are assigned sequentially while below `bufLen` and clamped to
`bufLen - 1` afterwards.  Returns the glyphs and the final counter. -/
def appendChars (bufLen : Nat) : List Nat → Nat → List Glyph × Nat
  | [], idx => ([], idx)
  | c :: cs, idx =>
    let cl := if idx < bufLen then idx else bufLen - 1
    let idx' := if idx < bufLen then idx + 1 else idx
    let r := appendChars bufLen cs idx'
    (mkGlyph c cl :: r.1, r.2)

structure OrchState where
  glyphs : List Glyph
  clusterIdx : Nat
  cache : List (List Nat × List Nat)
  genCalls : List (List Nat)
  lookups : List (List Nat)
  deriving DecidableEq

/-- One turn of the `while let` loop of lib.rs lines 111-165 on unit `u`;
`isLast` is `sentences.peek().is_none()`.  `genCalls` and `lookups`
instrument which prompts reached the engine and which keys reached the
cache. -/
def processUnit (gen : List Nat → Except String (List Nat)) (bufLen : Nat)
    (isLast : Bool) (u : List Nat) (st : OrchState) : OrchState :=
  if u.isEmpty then st
  else if u.length == 1 && isPunctCp (u.headD 0) then
    { st with
      glyphs := st.glyphs ++ [mkGlyph (u.headD 0) st.clusterIdx],
      clusterIdx := st.clusterIdx + 1 }
  else if !isLast || isPunctCp (u.getLastD 0) then
    let t := cacheLookupOrGen st.cache u gen
    let a := appendChars bufLen t.output st.clusterIdx
    { glyphs := st.glyphs ++ a.1,
      clusterIdx := a.2,
      cache := t.cache,
      genCalls := st.genCalls ++ (if t.invoked then [genPrompt u] else []),
      lookups := st.lookups ++ [u] }
  else
    let a := appendChars bufLen u st.clusterIdx
    { st with glyphs := st.glyphs ++ a.1, clusterIdx := a.2 }

/-- The whole sentence loop. -/
def runUnits (gen : List Nat → Except String (List Nat)) (bufLen : Nat) :
    List (List Nat) → OrchState → OrchState
  | [], st => st
  | u :: rest, st => runUnits gen bufLen rest (processUnit gen bufLen rest.isEmpty u st)

/-- lib.rs lines 169-174: resolve each codepoint to a font glyph id, then
set the advance of that id. -/
def fontPass (fontGlyph : Nat → Nat) (fontAdv : Nat → Int) (gs : List Glyph) :
    List Glyph :=
  gs.map (fun g =>
    let cp := fontGlyph g.codepoint
    { g with codepoint := cp, xAdvance := fontAdv cp })

/-- lib.rs lines 59-60: low byte of every codepoint, decoded lossily. -/
def bufText (bufIn : List Glyph) : List Nat :=
  decodeUtf8Lossy (bufIn.map (fun g => g.codepoint % 256))

/-- The orchestrator state at the start of the sentence loop (lib.rs
lines 108-109) over a given cache. -/
def startOrch (cache0 : List (List Nat × List Nat)) : OrchState :=
  { glyphs := [], clusterIdx := 0, cache := cache0, genCalls := [], lookups := [] }

/-- Whether an `Except` result is an error, used to state the return-code
contract. -/
def isErrB : Except String Unit → Bool
  | .error _ => true
  | .ok _ => false

structure ShapeResult where
  ret : Int
  stage : List Glyph
  final : List Glyph
  initAttempted : Bool
  genCalls : List (List Nat)
  lookups : List (List Nat)
  cacheOut : List (List Nat × List Nat)
  deriving DecidableEq

/-- The `shape` entry point, lib.rs lines 47-177.  `modelLoaded` is
whether the `MODEL` static already holds a session, `initResult` the
outcome `init_model` would have, `gen` the engine behind `model.decode`,
`cache0` the current `GENERATE_CACHE` content.  `stage` is the glyph list
the orchestration leaves in the buffer, `final` the list after the
unconditional font-resolution pass. -/
def shape (fontGlyph : Nat → Nat) (fontAdv : Nat → Int)
    (modelLoaded : Bool) (initResult : Except String Unit)
    (gen : List Nat → Except String (List Nat))
    (cache0 : List (List Nat × List Nat)) (bufIn : List Glyph) : ShapeResult :=
  let strBuf := bufText bufIn
  let bufLen := strBuf.length
  if is_number strBuf then
    let stage := strBuf.enum.map (fun ic => mkGlyph ic.2 ic.1)
    { ret := 1, stage := stage, final := fontPass fontGlyph fontAdv stage,
      initAttempted := false, genCalls := [], lookups := [], cacheOut := cache0 }
  else
    match modelLoaded, initResult with
    | false, .error _ =>
      -- line 91: `return 0` before touching the buffer.
      { ret := 0, stage := bufIn, final := bufIn,
        initAttempted := true, genCalls := [], lookups := [], cacheOut := cache0 }
    | _, _ =>
      let st := runUnits gen bufLen (splitSentences strBuf)
        { glyphs := [], clusterIdx := 0, cache := cache0, genCalls := [], lookups := [] }
      { ret := 1, stage := st.glyphs, final := fontPass fontGlyph fontAdv st.glyphs,
        initAttempted := !modelLoaded, genCalls := st.genCalls,
        lookups := st.lookups, cacheOut := st.cache }

end LlamaTtf

namespace T5Q

/-!
## The generation engine (`t5-quantized/src/lib.rs`)

The tensor math, tokenizer and sampler are the external collaborators of
the spec; they appear as the fields of `GenBackend`, typed over opaque
state types: `σ` the model (with its KV cache), `τ` tensors, `ε` the
encoder output, `Λ` logits, `ρ` the `LogitsProcessor` state.  The f64/f32
generation parameters are modelled as `Rat`: the core only ever compares
them (`<= 0.`, `>= 1.`, `== 1.`); all floating arithmetic happens inside
the collaborators.
-/

structure ConditionalGenerationParams where
  prompt : List Nat
  temperature : Rat
  seed : Nat
  topP : Rat
  repeatPenalty : Rat
  repeatLastN : Nat
  maxLength : Option Nat

/-- The fields of `Config` the decode loop reads. -/
structure GenConfig where
  padTokenId : Nat
  eosTokenId : Nat

structure GenBackend (σ τ ε Λ ρ : Type) where
  /-- `self.model.clear_kv_cache()` (line 52). -/
  clearKv : σ → σ
  /-- `self.tokenizer.encode(prompt, true)?.get_ids()` (lines 70-75). -/
  tokenize : List Nat → Except String (List Nat)
  /-- `Tensor::new(..)` followed by `unsqueeze(0)` for the prompt tokens
  (lines 77-89), the two fallible tensor steps merged into one call. -/
  mkInputTensor : List Nat → Except String τ
  /-- `self.model.encode(&input_token_ids)` (line 90). -/
  encode : σ → τ → Except String (σ × ε)
  /-- `Tensor::new(..).unsqueeze(0)` for the decoder tokens (lines 102-128). -/
  mkDecTensor : List Nat → Except String τ
  /-- `self.model.decode(&decoder_token_ids, &encoder_output)` with the
  subsequent `squeeze(0)` (lines 129-136); a squeeze failure panics in the
  source rather than returning, so it is part of the opaque tensor step. -/
  decodeStep : σ → τ → ε → Except String (σ × Λ)
  /-- `candle_transformers::utils::apply_repeat_penalty` (lines 140-145). -/
  applyPenalty : Λ → Rat → List Nat → Λ
  /-- `LogitsProcessor::new(seed, temperature, top_p)` (line 69). -/
  samplerInit : Nat → Option Rat → Option Rat → ρ
  /-- `logits_processor.sample(&logits)` (line 148). -/
  sample : ρ → Λ → Except String (Nat × ρ)
  /-- `self.tokenizer.id_to_token(next_token_id)` (line 158). -/
  idToToken : Nat → Option (List Nat)

/-- line 159: `replace("<0x0A>", "\n")`; `<0x0A>` is the codepoints
60,48,120,48,65,62, replaced left to right. -/
def replaceNl : List Nat → List Nat
  | 60 :: 48 :: 120 :: 48 :: 65 :: 62 :: rest => 10 :: replaceNl rest
  | c :: rest => c :: replaceNl rest
  | [] => []

/-- line 159: the word-boundary marker U+2581 becomes a space, then the
newline marker becomes a line feed. -/
def transformToken (t : List Nat) : List Nat :=
  replaceNl (t.map (fun c => if c = 9601 then 32 else c))

variable {σ τ ε Λ ρ : Type}

/-- `*output_token_ids.last().unwrap()` (line 116); the list is never
empty there (it starts from the pad token), so the default is inert. -/
def lastTok (l : List Nat) : Nat := l.getLastD 0

/-- The autoregressive loop, lines 98-162.  `idx` is the source's loop
variable `index` (`for index in 0..`); the first component of the result
is the value of `index` at which the loop stopped, so the body ran
`idx_exit - idx_entry + 1` times.  The second component carries the
source's result: output token ids, accumulated text, and the model
state.  The source's local bindings (`decoder_token_ids`, `logits`) are
single-use and written inline here. -/
def genLoop (B : GenBackend σ τ ε Λ ρ) (cfg : GenConfig)
    (p : ConditionalGenerationParams) (enc : ε) (maxLength : Nat)
    (idx : Nat) (out : List Nat) (decoded : List Nat) (s : σ) (lp : ρ) :
    Nat × Except String (List Nat × List Nat × σ) :=
  if out.length > maxLength then
    (idx, .ok (out, decoded, s))
  else
    match B.mkDecTensor (if idx = 0 then out else [lastTok out]) with
    | .error e => (idx, .error ("Failed to create tensor: " ++ e))
    | .ok dt =>
      match B.decodeStep s dt enc with
      | .error e => (idx, .error ("Failed to decode tensor: " ++ e))
      | .ok sl =>
        match B.sample lp (if p.repeatPenalty = 1 then sl.2
            else B.applyPenalty sl.2 p.repeatPenalty
              (out.drop (out.length - p.repeatLastN))) with
        | .error e => (idx, .error ("Failed to sample tensor: " ++ e))
        | .ok np =>
          if np.1 = cfg.eosTokenId then
            (idx, .ok (out, decoded, sl.1))
          else
            genLoop B cfg p enc maxLength (idx + 1) (out ++ [np.1])
              (decoded ++ (match B.idToToken np.1 with
                | some t => transformToken t
                | none => []))
              sl.1 np.2
  termination_by maxLength + 1 - out.length
  decreasing_by
    simp only [List.length_append, List.length_cons, List.length_nil]
    omega

/-- `ModelConditionalGeneration::decode`, lines 50-168, with the final
loop index exposed as the first component.  The source's single-use
local bindings (lines 51-69: the cleared model, the initial output
vector, the clamped `max_length`, the normalized temperature and top-p,
the logits processor) are written inline at their use sites. -/
def decode (B : GenBackend σ τ ε Λ ρ) (cfg : GenConfig) (s0 : σ)
    (input : ConditionalGenerationParams) :
    Nat × Except String (List Nat × List Nat × σ) :=
  match B.tokenize input.prompt with
  | .error e => (0, .error e)
  | .ok tokens =>
    match B.mkInputTensor tokens with
    | .error e => (0, .error ("Failed to create tensor: " ++ e))
    | .ok t =>
      match B.encode (B.clearKv s0) t with
      | .error e => (0, .error ("Failed to encode tensor: " ++ e))
      | .ok se =>
        genLoop B cfg input se.2 (min (max (input.maxLength.getD 512) 0) 512) 0
          [cfg.padTokenId] [] se.1
          (B.samplerInit input.seed
            (if input.temperature ≤ 0 then none else some input.temperature)
            (if input.topP ≤ 0 ∨ 1 ≤ input.topP then none else some input.topP))

/-- A backend over trivial collaborator states, used to exercise the
generation theorems on concrete inputs: the sampler always proposes
token 1. -/
def unitBackend : GenBackend Unit Unit Unit Unit Unit :=
  { clearKv := fun _ => ()
    tokenize := fun _ => .ok []
    mkInputTensor := fun _ => .ok ()
    encode := fun _ _ => .ok ((), ())
    mkDecTensor := fun _ => .ok ()
    decodeStep := fun _ _ _ => .ok ((), ())
    applyPenalty := fun l _ _ => l
    samplerInit := fun _ _ _ => ()
    sample := fun _ _ => .ok (1, ())
    idToToken := fun _ => none }

/-- A backend whose model state is a number and whose cache-clearing
resets it to zero; used to exercise the determinism theorem with two
different pre-call states. -/
def natBackend : GenBackend Nat Unit Unit Unit Unit :=
  { clearKv := fun _ => 0
    tokenize := fun _ => .ok []
    mkInputTensor := fun _ => .ok ()
    encode := fun s _ => .ok (s, ())
    mkDecTensor := fun _ => .ok ()
    decodeStep := fun s _ _ => .ok (s, ())
    applyPenalty := fun l _ _ => l
    samplerInit := fun _ _ _ => ()
    sample := fun _ _ => .ok (1, ())
    idToToken := fun _ => none }

end T5Q

namespace LlamaTtf

/-- lib.rs lines 20-30: the fixed generation parameters `shape` uses.
The f32 literal 1.1 is modelled by the rational 11/10; the source only
ever compares the penalty against 1, which both sides decide the same
way. -/
def build_gen_params (prompt : List Nat) : T5Q.ConditionalGenerationParams :=
  { prompt := prompt, temperature := 0, seed := 0, topP := 1,
    repeatPenalty := 11 / 10, repeatLastN := 1, maxLength := some 512 }

end LlamaTtf

namespace LlamaTtf

/-! ## Theorems about the shaping side -/

theorem appendChars_codepoints (bufLen : Nat) (l : List Nat) (idx : Nat) :
    (appendChars bufLen l idx).1.map Glyph.codepoint = l := by
  induction l generalizing idx with
  | nil => simp [appendChars]
  | cons c cs ih => simp [appendChars, mkGlyph, ih]

/-- C2: on input that parses as a single integer or float (`is_number`,
which tries the integer parse and then the float parse), `shape` leaves
one glyph per character in the buffer, codepoint equal to the character
and cluster equal to the position, without initializing the model or
invoking generation. -/
theorem numeric_fast_path (fontGlyph : Nat → Nat) (fontAdv : Nat → Int)
    (modelLoaded : Bool) (initResult : Except String Unit)
    (gen : List Nat → Except String (List Nat))
    (cache0 : List (List Nat × List Nat)) (bufIn : List Glyph)
    (h : is_number (bufText bufIn) = true) :
    let r := shape fontGlyph fontAdv modelLoaded initResult gen cache0 bufIn
    r.stage = (bufText bufIn).enum.map (fun ic => mkGlyph ic.2 ic.1) ∧
    r.stage.map Glyph.codepoint = bufText bufIn ∧
    r.stage.map Glyph.cluster = List.range (bufText bufIn).length ∧
    r.stage.length = (bufText bufIn).length ∧
    r.genCalls = [] ∧ r.initAttempted = false ∧ r.ret = 1 := by
  refine ⟨?_, ?_, ?_, ?_, ?_, ?_, ?_⟩ <;>
    simp [shape, h, mkGlyph, Function.comp_def]

theorem numeric_fast_path_witness :
    (shape id (fun _ => 0) false (.error "no model") (fun _ => .error "down") []
        [mkGlyph 49 0, mkGlyph 50 1, mkGlyph 51 2]).stage =
      (bufText [mkGlyph 49 0, mkGlyph 50 1, mkGlyph 51 2]).enum.map
        (fun ic => mkGlyph ic.2 ic.1) :=
  (numeric_fast_path id (fun _ => 0) false (.error "no model") (fun _ => .error "down")
    [] [mkGlyph 49 0, mkGlyph 50 1, mkGlyph 51 2] (by decide)).1

/-- C4: the translation-cache step of lib.rs lines 129-147.  A hit
returns the stored value without invoking generation; a miss invokes
generation on the composed prompt and, on success, stores and returns
the result; on failure it returns the sentence unchanged and stores
nothing. -/
theorem cache_get_or_compute (cache : List (List Nat × List Nat)) (key : List Nat)
    (gen : List Nat → Except String (List Nat)) :
    (∀ v, cacheFind cache key = some v →
      cacheLookupOrGen cache key gen =
        { output := v, cache := cache, invoked := false }) ∧
    (∀ out, cacheFind cache key = none → gen (genPrompt key) = .ok out →
      cacheLookupOrGen cache key gen =
        { output := out, cache := cacheInsert cache key out, invoked := true }) ∧
    (∀ e, cacheFind cache key = none → gen (genPrompt key) = .error e →
      cacheLookupOrGen cache key gen =
        { output := key, cache := cache, invoked := true }) := by
  refine ⟨?_, ?_, ?_⟩ <;> intros <;> simp [cacheLookupOrGen, *]

theorem cache_get_or_compute_witness :
    (cacheLookupOrGen [(strCps "Hi.", strCps "Hallo.")] (strCps "Hi.")
        (fun _ => .error "down") =
      { output := strCps "Hallo.", cache := [(strCps "Hi.", strCps "Hallo.")],
        invoked := false }) ∧
    (cacheLookupOrGen [] (strCps "Go.") (fun _ => .ok (strCps "Geh.")) =
      { output := strCps "Geh.", cache := cacheInsert [] (strCps "Go.") (strCps "Geh."),
        invoked := true }) ∧
    (cacheLookupOrGen [] (strCps "Go.") (fun _ => .error "down") =
      { output := strCps "Go.", cache := [], invoked := true }) :=
  ⟨(cache_get_or_compute [(strCps "Hi.", strCps "Hallo.")] (strCps "Hi.")
      (fun _ => .error "down")).1 (strCps "Hallo.") (by decide),
   (cache_get_or_compute [] (strCps "Go.") (fun _ => .ok (strCps "Geh."))).2.1
      (strCps "Geh.") (by decide) rfl,
   (cache_get_or_compute [] (strCps "Go.") (fun _ => .error "down")).2.2
      "down" (by decide) rfl⟩

/-- C5: a multi-character sentence unit goes through the translation
path exactly when it is not the final unit or ends in sentence-terminal
punctuation; a final unit without terminal punctuation is appended
character for character with no generation call and no cache lookup. -/
theorem unit_translate_decision (gen : List Nat → Except String (List Nat))
    (bufLen : Nat) (isLast : Bool) (u : List Nat) (st : OrchState)
    (h2 : 2 ≤ u.length) :
    ((isLast = false ∨ isPunctCp (u.getLastD 0) = true) →
      let t := cacheLookupOrGen st.cache u gen
      let r := processUnit gen bufLen isLast u st
      r.glyphs.map Glyph.codepoint = st.glyphs.map Glyph.codepoint ++ t.output ∧
      r.cache = t.cache ∧
      r.genCalls = st.genCalls ++ (if t.invoked then [genPrompt u] else []) ∧
      r.lookups = st.lookups ++ [u]) ∧
    ((isLast = true ∧ isPunctCp (u.getLastD 0) = false) →
      let r := processUnit gen bufLen isLast u st
      r.glyphs.map Glyph.codepoint = st.glyphs.map Glyph.codepoint ++ u ∧
      r.cache = st.cache ∧ r.genCalls = st.genCalls ∧ r.lookups = st.lookups) := by
  have hne : ¬(u.isEmpty = true) := by
    cases u with
    | nil => simp at h2
    | cons a l => simp
  have hlen : ¬((u.length == 1 && isPunctCp (u.headD 0)) = true) := by
    simp only [Bool.and_eq_true, beq_iff_eq, not_and]
    omega
  constructor
  · intro hcond
    have hb : (!isLast || isPunctCp (u.getLastD 0)) = true := by
      rcases hcond with h | h
      · rw [h]; rfl
      · rw [h]; simp
    unfold processUnit
    rw [if_neg hne, if_neg hlen, if_pos hb]
    simp [appendChars_codepoints]
  · rintro ⟨hl, hp⟩
    have hb : ¬((!isLast || isPunctCp (u.getLastD 0)) = true) := by
      rw [hl, hp]; simp
    unfold processUnit
    rw [if_neg hne, if_neg hlen, if_neg hb]
    simp [appendChars_codepoints]

theorem unit_translate_decision_witness :
    ((processUnit (fun _ => .ok (strCps "Hallo.")) 10 false (strCps "Hi.")
        (startOrch [])).glyphs.map Glyph.codepoint = strCps "Hallo.") ∧
    ((processUnit (fun _ => .ok (strCps "Hallo.")) 10 true (strCps "Hi")
        (startOrch [])).glyphs.map Glyph.codepoint = strCps "Hi") := by
  constructor
  · have h := (unit_translate_decision (fun _ => .ok (strCps "Hallo.")) 10 false
      (strCps "Hi.") (startOrch []) (by decide)).1 (Or.inl rfl)
    simpa [startOrch] using h.1
  · have h := (unit_translate_decision (fun _ => .ok (strCps "Hallo.")) 10 true
      (strCps "Hi") (startOrch []) (by decide)).2 ⟨rfl, by decide⟩
    simpa [startOrch] using h.1

/-- C6: a unit that is exactly one sentence-terminal punctuation
character is emitted as a single glyph with unchanged codepoint at the
current sequential cluster index, the counter advances by one, and the
cache, generation-call and lookup records are untouched. -/
theorem lone_punctuation_unit (gen : List Nat → Except String (List Nat))
    (bufLen : Nat) (isLast : Bool) (c : Nat) (st : OrchState)
    (h : isPunctCp c = true) :
    processUnit gen bufLen isLast [c] st =
      { st with glyphs := st.glyphs ++ [mkGlyph c st.clusterIdx],
                clusterIdx := st.clusterIdx + 1 } := by
  simp [processUnit, h]

theorem lone_punctuation_unit_witness :
    processUnit (fun _ => .error "down") 5 false [33] { startOrch [] with clusterIdx := 2 } =
      { startOrch [] with glyphs := [mkGlyph 33 2], clusterIdx := 3 } :=
  lone_punctuation_unit (fun _ => .error "down") 5 false 33
    { startOrch [] with clusterIdx := 2 } (by decide)

/-- C9: `shape` returns 1 except exactly when the input is non-numeric,
no model is resident and initialization fails; generation failures never
produce 0, and numeric inputs return 1 without attempting model
initialization. -/
theorem shape_return_code (fontGlyph : Nat → Nat) (fontAdv : Nat → Int)
    (modelLoaded : Bool) (initResult : Except String Unit)
    (gen : List Nat → Except String (List Nat))
    (cache0 : List (List Nat × List Nat)) (bufIn : List Glyph) :
    let r := shape fontGlyph fontAdv modelLoaded initResult gen cache0 bufIn
    (r.ret = 0 ∨ r.ret = 1) ∧
    (r.ret = 0 ↔
      is_number (bufText bufIn) = false ∧ modelLoaded = false ∧ isErrB initResult = true) ∧
    (is_number (bufText bufIn) = true → r.ret = 1 ∧ r.initAttempted = false) := by
  cases h : is_number (bufText bufIn) <;>
    cases modelLoaded <;>
      cases initResult <;>
        simp [shape, h, isErrB]

theorem shape_return_code_witness :
    (shape id (fun _ => 0) false (.error "no model") (fun _ => .error "down") []
        [mkGlyph 49 0, mkGlyph 50 1, mkGlyph 51 2]).ret = 1 ∧
    (shape id (fun _ => 0) false (.error "no model") (fun _ => .error "down") []
        [mkGlyph 49 0, mkGlyph 50 1, mkGlyph 51 2]).initAttempted = false :=
  (shape_return_code id (fun _ => 0) false (.error "no model") (fun _ => .error "down")
    [] [mkGlyph 49 0, mkGlyph 50 1, mkGlyph 51 2]).2.2 (by decide)

/-! ## The low-byte reconstruction (C10) -/

theorem utf8Step_nil (b : Nat) : (utf8Step b []).2 = 1 := by
  unfold utf8Step
  by_cases hb : b < 128
  · rw [if_pos hb]
  · rw [if_neg hb]
    by_cases h0 : (leadSpec b).2.2 = 0
    · rw [if_pos h0]
    · rw [if_neg h0]

/-- A step that consumes at most one byte either echoes an ASCII byte or
produces the replacement character. -/
theorem utf8Step_low (b : Nat) (rest : List Nat)
    (h1 : (utf8Step b rest).2 ≤ 1) :
    ((utf8Step b rest).1 = b ∧ b < 128) ∨ (utf8Step b rest).1 = 65533 := by
  unfold utf8Step at h1 ⊢
  by_cases hb : b < 128
  · rw [if_pos hb]
    exact Or.inl ⟨rfl, hb⟩
  · rw [if_neg hb] at h1 ⊢
    by_cases h0 : (leadSpec b).2.2 = 0
    · rw [if_pos h0]
      exact Or.inr rfl
    · rw [if_neg h0] at h1 ⊢
      cases rest with
      | nil => exact Or.inr rfl
      | cons b2 rest2 =>
        dsimp only at h1 ⊢
        by_cases hr2 : ¬((leadSpec b).1 ≤ b2 ∧ b2 ≤ (leadSpec b).2.1)
        · rw [if_pos hr2]
          exact Or.inr rfl
        · rw [if_neg hr2] at h1 ⊢
          by_cases h2 : (leadSpec b).2.2 = 2
          · rw [if_pos h2] at h1
            simp at h1
          · rw [if_neg h2] at h1 ⊢
            cases rest2 with
            | nil =>
              dsimp only at h1
              simp at h1
            | cons b3 rest3 =>
              dsimp only at h1 ⊢
              by_cases hr3 : ¬(128 ≤ b3 ∧ b3 ≤ 191)
              · rw [if_pos hr3] at h1
                simp at h1
              · rw [if_neg hr3] at h1 ⊢
                by_cases h3 : (leadSpec b).2.2 = 3
                · rw [if_pos h3] at h1
                  simp at h1
                · rw [if_neg h3] at h1 ⊢
                  cases rest3 with
                  | nil =>
                    dsimp only at h1
                    simp at h1
                  | cons b4 rest4 =>
                    dsimp only at h1 ⊢
                    by_cases hr4 : ¬(128 ≤ b4 ∧ b4 ≤ 191)
                    · rw [if_pos hr4] at h1
                      simp at h1
                    · rw [if_neg hr4] at h1
                      simp at h1

theorem decodeLossyGo_length_le :
    ∀ (fuel : Nat) (l : List Nat), (decodeLossyGo fuel l).length ≤ l.length := by
  intro fuel
  induction fuel with
  | zero =>
    intro l
    cases l <;> simp [decodeLossyGo]
  | succ n ih =>
    intro l
    cases l with
    | nil => simp [decodeLossyGo]
    | cons b rest =>
      simp only [decodeLossyGo, List.length_cons]
      have h := ih (rest.drop ((utf8Step b rest).2 - 1))
      have h2 : (rest.drop ((utf8Step b rest).2 - 1)).length ≤ rest.length := by
        simp
      omega

/-- If lossy decoding of the low bytes of a codepoint sequence gives the
sequence back, then every codepoint was either a byte value or the
replacement character U+FFFD. -/
theorem roundtrip_bytes :
    ∀ (fuel : Nat) (cps : List Nat), cps.length ≤ fuel →
      decodeLossyGo fuel (cps.map (· % 256)) = cps →
      ∀ c ∈ cps, c ≤ 255 ∨ c = 65533 := by
  intro fuel
  induction fuel with
  | zero =>
    intro cps hlen hdec c hc
    cases cps with
    | nil => simp at hc
    | cons a l => simp at hlen
  | succ n ih =>
    intro cps hlen hdec c hc
    cases cps with
    | nil => simp at hc
    | cons c0 cs =>
      rw [List.map_cons] at hdec
      simp only [decodeLossyGo] at hdec
      rw [List.cons.injEq] at hdec
      obtain ⟨hhead, htail⟩ := hdec
      by_cases hk : (utf8Step (c0 % 256) (cs.map (· % 256))).2 ≤ 1
      · have hh := utf8Step_low (c0 % 256) (cs.map (· % 256)) hk
        have hdrop0 : (utf8Step (c0 % 256) (cs.map (· % 256))).2 - 1 = 0 := by
          omega
        rw [hdrop0, List.drop_zero] at htail
        rcases List.mem_cons.mp hc with rfl | hmem
        · rcases hh with ⟨he, hlt⟩ | he
          · left
            have hcc : c % 256 = c := by
              rw [← he]
              exact hhead
            omega
          · right
            rw [← hhead, he]
        · exact ih cs (by simp at hlen; omega) htail c hmem
      · exfalso
        cases cs with
        | nil =>
          rw [List.map_nil] at hk
          have h1 := utf8Step_nil (c0 % 256)
          omega
        | cons d ds =>
          have hlenle := decodeLossyGo_length_le n
            (((d :: ds).map (· % 256)).drop
              ((utf8Step (c0 % 256) ((d :: ds).map (· % 256))).2 - 1))
          rw [htail] at hlenle
          simp only [List.length_drop, List.length_map, List.length_cons] at hlenle
          omega

/-- C10 as stated fails: the replacement character itself survives the
low-byte reconstruction.  A buffer holding the single codepoint 65533
(U+FFFD, greater than 255) is reconstructed as exactly that codepoint:
its low byte 0xFD is an invalid UTF-8 byte and lossy decoding turns it
back into U+FFFD, so this buffer round-trips into the pipeline. -/
theorem replacement_char_roundtrips :
    bufText [mkGlyph 65533 0] = [mkGlyph 65533 0].map Glyph.codepoint ∧
    255 < (mkGlyph 65533 0).codepoint := by
  decide

/-- C10 amended: `shape` reconstructs the text from the low byte of each
codepoint via lossy UTF-8 decoding, so the pipeline only sees codepoints
mod 256 (two buffers with the same low bytes reconstruct identically),
and a buffer round-trips (reconstructs to its own codepoint sequence)
only if every codepoint is at most 255 or is the replacement character
U+FFFD. -/
theorem low_byte_reconstruction :
    (∀ b1 b2 : List Glyph,
      b1.map (fun g => g.codepoint % 256) = b2.map (fun g => g.codepoint % 256) →
      bufText b1 = bufText b2) ∧
    (∀ buf : List Glyph, bufText buf = buf.map Glyph.codepoint →
      ∀ g ∈ buf, g.codepoint ≤ 255 ∨ g.codepoint = 65533) := by
  constructor
  · intro b1 b2 h
    unfold bufText
    rw [h]
  · intro buf h g hg
    have hmm : buf.map (fun g => g.codepoint % 256) =
        (buf.map Glyph.codepoint).map (· % 256) := by
      rw [List.map_map]
      rfl
    have hlen : (buf.map Glyph.codepoint).length ≤
        ((buf.map Glyph.codepoint).map (· % 256)).length := by
      simp
    have h' : decodeLossyGo ((buf.map Glyph.codepoint).map (· % 256)).length
        ((buf.map Glyph.codepoint).map (· % 256)) = buf.map Glyph.codepoint := by
      unfold bufText decodeUtf8Lossy at h
      rw [hmm] at h
      exact h
    have hres := roundtrip_bytes ((buf.map Glyph.codepoint).map (· % 256)).length
      (buf.map Glyph.codepoint) hlen h' g.codepoint (List.mem_map_of_mem _ hg)
    exact hres

theorem low_byte_reconstruction_witness :
    bufText [mkGlyph 321 0] = bufText [mkGlyph 577 0] ∧
    (∀ g ∈ [mkGlyph 104 0, mkGlyph 105 1],
      g.codepoint ≤ 255 ∨ g.codepoint = 65533) :=
  ⟨low_byte_reconstruction.1 [mkGlyph 321 0] [mkGlyph 577 0] (by decide),
   low_byte_reconstruction.2 [mkGlyph 104 0, mkGlyph 105 1] (by decide)⟩

/-- C1 fails on the code: with original length 3 (buffer "A..") and a
translation of "A." four characters long, the general branch fills the
cluster budget (clusters 0,1,2,2) and the following lone-punctuation
unit "." is emitted with the unclamped counter value 3, outside
[0, original_length - 1] = [0, 2]. -/
theorem lone_punct_cluster_overflow :
    ((shape id (fun _ => 0) true (.ok ()) (fun _ => .ok (strCps "WXYZ")) []
        [mkGlyph 65 0, mkGlyph 46 1, mkGlyph 46 2]).stage.map Glyph.cluster =
      [0, 1, 2, 2, 3]) ∧
    (bufText [mkGlyph 65 0, mkGlyph 46 1, mkGlyph 46 2]).length = 3 ∧
    is_number (bufText [mkGlyph 65 0, mkGlyph 46 1, mkGlyph 46 2]) = false := by
  decide

end LlamaTtf

namespace T5Q

/-! ## Theorems about the generation engine -/

variable {σ τ ε Λ ρ : Type}

/-- Helper: entering the loop at index `idx` with at most
`maxLength + 1` output tokens, the loop stops at an index at most
`idx + (maxLength + 1 - out.length)`. -/
theorem genLoop_index_le (B : GenBackend σ τ ε Λ ρ) (cfg : GenConfig)
    (p : ConditionalGenerationParams) (enc : ε) (maxLength : Nat) :
    ∀ n idx (out : List Nat) decoded s lp,
      maxLength + 1 - out.length ≤ n → out.length ≤ maxLength + 1 →
      (genLoop B cfg p enc maxLength idx out decoded s lp).1 ≤
        idx + (maxLength + 1 - out.length) := by
  intro n
  induction n with
  | zero =>
    intro idx out decoded s lp hn hlen
    rw [genLoop, if_pos (by omega)]
    simp
  | succ n ih =>
    intro idx out decoded s lp hn hlen
    rw [genLoop]
    by_cases hgt : out.length > maxLength
    · rw [if_pos hgt]
      simp
    · rw [if_neg hgt]
      rcases hmt : B.mkDecTensor (if idx = 0 then out else [lastTok out]) with e | dt
      · simp
      · dsimp only
        rcases hds : B.decodeStep s dt enc with e | sl
        · simp
        · dsimp only
          rcases hs : B.sample lp (if p.repeatPenalty = 1 then sl.2
              else B.applyPenalty sl.2 p.repeatPenalty
                (out.drop (out.length - p.repeatLastN))) with e | np
          · simp
          · dsimp only
            by_cases heos : np.1 = cfg.eosTokenId
            · rw [if_pos heos]
              simp
            · rw [if_neg heos]
              have h := ih (idx + 1) (out ++ [np.1])
                (decoded ++ (match B.idToToken np.1 with
                  | some t => transformToken t
                  | none => []))
                sl.1 np.2
                (by simp only [List.length_append, List.length_cons, List.length_nil]; omega)
                (by simp only [List.length_append, List.length_cons, List.length_nil]; omega)
              simp only [List.length_append, List.length_cons, List.length_nil] at h
              omega

/-- C3: for every backend behaviour, prompt and parameter set, the
generation loop of `decode` runs at most `max_length + 1` times, where
`max_length` is the caller's maximum clamped to [0, 512] with default
512 when absent.  The first component of `decode` is the loop index at
which generation stopped, so the body ran at most that plus one times. -/
theorem decode_loop_bounded (B : GenBackend σ τ ε Λ ρ) (cfg : GenConfig)
    (s0 : σ) (input : ConditionalGenerationParams) :
    (decode B cfg s0 input).1 + 1 ≤
      min (max (input.maxLength.getD 512) 0) 512 + 1 := by
  unfold decode
  cases B.tokenize input.prompt with
  | error e => simp
  | ok tokens =>
    dsimp only
    cases B.mkInputTensor tokens with
    | error e => simp
    | ok t =>
      dsimp only
      cases B.encode (B.clearKv s0) t with
      | error e => simp
      | ok se =>
        dsimp only
        have h := genLoop_index_le B cfg input se.2
          (min (max (input.maxLength.getD 512) 0) 512)
          (min (max (input.maxLength.getD 512) 0) 512 + 1)
          0 [cfg.padTokenId] [] se.1
          (B.samplerInit input.seed
            (if input.temperature ≤ 0 then none else some input.temperature)
            (if input.topP ≤ 0 ∨ 1 ≤ input.topP then none else some input.topP))
          (by simp) (by simp)
        simp only [List.length_cons, List.length_nil] at h
        omega

/-- C7: two `decode` calls with the same prompt, seed and parameters at
temperature 0 produce the same result whatever model state was left over
from before, because the KV cache is cleared first (`clear_kv_cache`
resets to a state independent of the previous one). -/
theorem decode_state_independent (B : GenBackend σ τ ε Λ ρ) (cfg : GenConfig)
    (s1 s2 : σ) (input : ConditionalGenerationParams)
    (hclear : ∀ a b : σ, B.clearKv a = B.clearKv b)
    (htemp : input.temperature ≤ 0) :
    decode B cfg s1 input = decode B cfg s2 input := by
  unfold decode
  rw [hclear s1 s2]

/-- C8: in any iteration of the generation loop (any reachable loop
state), if the sampled token equals the end-of-sequence token the loop
stops at once, returning the output token list and accumulated text
unchanged: the token is neither appended nor decoded into text. -/
theorem genLoop_eos_stops (B : GenBackend σ τ ε Λ ρ) (cfg : GenConfig)
    (p : ConditionalGenerationParams) (enc : ε) (maxLength : Nat)
    (idx : Nat) (out decoded : List Nat) (s : σ) (lp : ρ)
    (hlen : ¬(out.length > maxLength))
    (dt : τ) (hmt : B.mkDecTensor (if idx = 0 then out else [lastTok out]) = .ok dt)
    (sl : σ × Λ) (hds : B.decodeStep s dt enc = .ok sl)
    (np : Nat × ρ)
    (hs : B.sample lp (if p.repeatPenalty = 1 then sl.2
      else B.applyPenalty sl.2 p.repeatPenalty
        (out.drop (out.length - p.repeatLastN))) = .ok np)
    (heos : np.1 = cfg.eosTokenId) :
    genLoop B cfg p enc maxLength idx out decoded s lp =
      (idx, .ok (out, decoded, sl.1)) := by
  rw [genLoop, if_neg hlen, hmt]
  dsimp only
  rw [hds]
  dsimp only
  rw [hs]
  dsimp only
  rw [if_pos heos]

/-- Helper: every token the loop appends differs from the EOS token; the
initial output list is a prefix of the returned one. -/
theorem genLoop_no_eos (B : GenBackend σ τ ε Λ ρ) (cfg : GenConfig)
    (p : ConditionalGenerationParams) (enc : ε) (maxLength : Nat) :
    ∀ n idx (out : List Nat) decoded s lp m toks txt sf,
      maxLength + 1 - out.length ≤ n →
      genLoop B cfg p enc maxLength idx out decoded s lp = (m, .ok (toks, txt, sf)) →
      out <+: toks ∧ ∀ t ∈ toks.drop out.length, t ≠ cfg.eosTokenId := by
  intro n
  induction n with
  | zero =>
    intro idx out decoded s lp m toks txt sf hn hrun
    rw [genLoop, if_pos (by omega)] at hrun
    obtain ⟨rfl, rfl, rfl⟩ : out = toks ∧ decoded = txt ∧ s = sf := by
      simp only [Prod.mk.injEq, Except.ok.injEq] at hrun
      exact ⟨hrun.2.1, hrun.2.2.1, hrun.2.2.2⟩
    simp
  | succ n ih =>
    intro idx out decoded s lp m toks txt sf hn hrun
    rw [genLoop] at hrun
    by_cases hgt : out.length > maxLength
    · rw [if_pos hgt] at hrun
      obtain ⟨rfl, rfl, rfl⟩ : out = toks ∧ decoded = txt ∧ s = sf := by
        simp only [Prod.mk.injEq, Except.ok.injEq] at hrun
        exact ⟨hrun.2.1, hrun.2.2.1, hrun.2.2.2⟩
      simp
    · rw [if_neg hgt] at hrun
      rcases hmt : B.mkDecTensor (if idx = 0 then out else [lastTok out]) with e | dt
      · rw [hmt] at hrun
        simp at hrun
      · rw [hmt] at hrun
        dsimp only at hrun
        rcases hds : B.decodeStep s dt enc with e | sl
        · rw [hds] at hrun
          simp at hrun
        · rw [hds] at hrun
          dsimp only at hrun
          rcases hs : B.sample lp (if p.repeatPenalty = 1 then sl.2
              else B.applyPenalty sl.2 p.repeatPenalty
                (out.drop (out.length - p.repeatLastN))) with e | np
          · rw [hs] at hrun
            simp at hrun
          · rw [hs] at hrun
            dsimp only at hrun
            by_cases heos : np.1 = cfg.eosTokenId
            · rw [if_pos heos] at hrun
              obtain ⟨rfl, rfl, rfl⟩ : out = toks ∧ decoded = txt ∧ sl.1 = sf := by
                simp only [Prod.mk.injEq, Except.ok.injEq] at hrun
                exact ⟨hrun.2.1, hrun.2.2.1, hrun.2.2.2⟩
              simp
            · rw [if_neg heos] at hrun
              have hrec := ih (idx + 1) (out ++ [np.1])
                (decoded ++ (match B.idToToken np.1 with
                  | some t => transformToken t
                  | none => []))
                sl.1 np.2 m toks txt sf
                (by simp only [List.length_append, List.length_cons, List.length_nil]; omega)
                hrun
              obtain ⟨hpre, hno⟩ := hrec
              obtain ⟨rest, hrest⟩ := hpre
              constructor
              · exact ⟨[np.1] ++ rest, by simpa [List.append_assoc] using hrest⟩
              · intro t ht
                have hdrop : toks.drop out.length = [np.1] ++ rest := by
                  rw [← hrest, List.append_assoc]
                  exact List.drop_left out ([np.1] ++ rest)
                rw [hdrop] at ht
                rcases List.mem_append.mp ht with h1 | h2
                · simp at h1
                  subst h1
                  exact heos
                · have hdrop2 : toks.drop (out ++ [np.1]).length = rest := by
                    rw [← hrest]
                    exact List.drop_left _ _
                  exact hno t (by rw [hdrop2]; exact h2)

/-- Corollary at the `decode` level: the returned token sequence never
contains the EOS token after the initial pad token. -/
theorem decode_no_eos_after_pad (B : GenBackend σ τ ε Λ ρ) (cfg : GenConfig)
    (s0 : σ) (input : ConditionalGenerationParams) (m : Nat)
    (toks txt : List Nat) (sf : σ)
    (hrun : decode B cfg s0 input = (m, .ok (toks, txt, sf))) :
    ∀ t ∈ toks.drop 1, t ≠ cfg.eosTokenId := by
  unfold decode at hrun
  cases htok : B.tokenize input.prompt with
  | error e =>
    rw [htok] at hrun
    simp at hrun
  | ok tokens =>
    rw [htok] at hrun
    dsimp only at hrun
    cases hmt : B.mkInputTensor tokens with
    | error e =>
      rw [hmt] at hrun
      simp at hrun
    | ok t =>
      rw [hmt] at hrun
      dsimp only at hrun
      cases henc : B.encode (B.clearKv s0) t with
      | error e =>
        rw [henc] at hrun
        simp at hrun
      | ok se =>
        rw [henc] at hrun
        dsimp only at hrun
        have h := genLoop_no_eos B cfg input se.2
          (min (max (input.maxLength.getD 512) 0) 512)
          (min (max (input.maxLength.getD 512) 0) 512 + 1)
          0 [cfg.padTokenId] [] se.1
          (B.samplerInit input.seed
            (if input.temperature ≤ 0 then none else some input.temperature)
            (if input.topP ≤ 0 ∨ 1 ≤ input.topP then none else some input.topP))
          m toks txt sf (by simp) hrun
        simpa using h.2

theorem genLoop_eos_stops_witness :
    genLoop unitBackend { padTokenId := 0, eosTokenId := 1 }
        (LlamaTtf.build_gen_params (LlamaTtf.strCps "x")) () 512 0 [0] [] () () =
      (0, .ok ([0], [], ())) :=
  genLoop_eos_stops unitBackend { padTokenId := 0, eosTokenId := 1 }
    (LlamaTtf.build_gen_params (LlamaTtf.strCps "x")) () 512 0 [0] [] () ()
    (by decide) () rfl ((), ()) rfl (1, ()) rfl rfl

theorem decode_state_independent_witness :
    decode natBackend { padTokenId := 0, eosTokenId := 1 } 5
        (LlamaTtf.build_gen_params (LlamaTtf.strCps "x")) =
      decode natBackend { padTokenId := 0, eosTokenId := 1 } 7
        (LlamaTtf.build_gen_params (LlamaTtf.strCps "x")) :=
  decode_state_independent natBackend { padTokenId := 0, eosTokenId := 1 } 5 7
    (LlamaTtf.build_gen_params (LlamaTtf.strCps "x")) (fun _ _ => rfl)
    (by simp [LlamaTtf.build_gen_params])

end T5Q

